import Mathlib

/-!
Verification of the pagespeed-simple repository.

The development shallowly embeds the three source files:
* the client component (recommendation merger `mergeRecommendations` and
  savings parser `getSavingsMs`),
* `src/app/api/pagespeed/route.ts` (simple extractor `extractResult` and its
  `POST` handler),
* `src/app/api/analyze/route.ts` (richer extractor `analyzePageSpeed` and its
  `POST` handler).

JavaScript numbers are modelled as `ℚ` (the programs only perform exact
arithmetic on the claimed inputs); `NaN`-producing or throwing paths are
modelled with `Option`.  Strings are Lean `String`s / `List Char`.
-/

namespace PageSpeed

/-! ### JavaScript string primitives -/

/-- `needle` is a prefix of the second list (models `String.prototype.startsWith`
as used to implement substring search). -/
def isStart : List Char → List Char → Bool
  | [], _ => true
  | _ :: _, [] => false
  | a :: as, b :: bs => a == b && isStart as bs

/-- `containsSub needle hay` models `hay.includes(needle)`. -/
def containsSub (needle : List Char) : List Char → Bool
  | [] => isStart needle []
  | c :: cs => isStart needle (c :: cs) || containsSub needle cs

/-- Models `str.replace(",", ".")`: JavaScript `replace` with a string pattern
replaces only the first occurrence. -/
def replaceFirstComma : List Char → List Char
  | [] => []
  | c :: cs => if c == ',' then '.' :: cs else c :: replaceFirstComma cs

/-- The character class `[\d.]` of the regex `/([\d.]+)/`. -/
def isDigitDot (c : Char) : Bool := c.isDigit || c == '.'

/-- `str.match(/([\d.]+)/)`: the first maximal run of digit/period characters,
`none` when the regex does not match. -/
def firstDigitRun : List Char → Option (List Char)
  | [] => none
  | c :: cs =>
      if isDigitDot c then some (c :: cs.takeWhile isDigitDot)
      else firstDigitRun cs

/-- Split a digit/period string at its periods (used to model `Number(...)`). -/
def splitDots : List Char → List (List Char)
  | [] => [[]]
  | c :: cs =>
      let r := splitDots cs
      if c == '.' then [] :: r
      else
        match r with
        | [] => [[c]]
        | p :: ps => (c :: p) :: ps

/-- Decimal value of a digit string. -/
def digitsVal (ds : List Char) : ℕ :=
  ds.foldl (fun n c => 10 * n + (c.toNat - 48)) 0

/-- `Number(str)` on a string made of digits and periods: `none` models `NaN`
(more than one period, or a lone period).  `Number("1.2")` is `6/5`,
`Number("1.")` is `1`, `Number(".5")` is `1/2`, `Number("1.2.3")` is `NaN`. -/
def jsNumber (cs : List Char) : Option ℚ :=
  match splitDots cs with
  | [p] => some (digitsVal p)
  | [p, q] =>
      if p.isEmpty && q.isEmpty then none
      else some ((digitsVal p : ℚ) + (digitsVal q : ℚ) / (10 : ℚ) ^ q.length)
  | _ => none

/-- `Math.round q`: round half toward positive infinity. -/
def jsRound (q : ℚ) : ℤ := ⌊q + 1 / 2⌋

/-! ### Client component: data model, savings parser, merger -/

/-- `RecommendationItem` of the client component (`Recommendations[number]`).
`savingsMs : Option ℚ` models the optional numeric field. -/
structure RecItem where
  title : String
  description : Option String
  savings : Option String
  savingsMs : Option ℚ
deriving DecidableEq, Repr

/-- `getSavingsMs` from the client component:
numeric `savingsMs` is used directly; otherwise the `savings` string is parsed
(first comma becomes a period, lowercase, first digit/period run, `Number`),
scaled by 1000 when the normalized string contains `"s"` but not `"ms"`.
A falsy `savings` (absent or empty) and an unparsable string give 0. -/
def getSavingsMs (item : RecItem) : ℚ :=
  match item.savingsMs with
  | some n => n
  | none =>
    match item.savings with
    | none => 0
    | some s =>
      if s = "" then 0
      else
        let normalized := (replaceFirstComma s.data).map Char.toLower
        match firstDigitRun normalized with
        | none => 0
        | some run =>
          match jsNumber run with
          | none => 0
          | some value =>
            if containsSub "ms".data normalized then value
            else if containsSub "s".data normalized then value * 1000
            else value

example : getSavingsMs ⟨"t", none, some "1.2 s", none⟩ = 1200 := by with_unfolding_all rfl
example : getSavingsMs ⟨"t", none, some "300 ms", none⟩ = 300 := by with_unfolding_all rfl
example : getSavingsMs ⟨"t", none, some "1,5 s", none⟩ = 1500 := by with_unfolding_all rfl
example : getSavingsMs ⟨"t", none, some "", none⟩ = 0 := by with_unfolding_all rfl
example : getSavingsMs ⟨"t", none, none, none⟩ = 0 := by with_unfolding_all rfl
example : getSavingsMs ⟨"t", none, some "abc", none⟩ = 0 := by with_unfolding_all rfl
example : getSavingsMs ⟨"t", none, some "250", none⟩ = 250 := by with_unfolding_all rfl

/-! ### A stable descending sort, modelling `Array.prototype.sort` with the
comparator `(a, b) => key b - key a`.  JavaScript sorts are stable, and the
comparator places `a` before `b` exactly when `key b < key a`. -/

/-- Insert `a` into `l`, placing it before the first element of strictly
smaller key (so elements of equal key keep their relative order). -/
def insertDesc (key : α → ℚ) (a : α) : List α → List α
  | [] => [a]
  | b :: l => if key b < key a then a :: b :: l else b :: insertDesc key a l

/-- Stable insertion sort by strictly decreasing key. -/
def sortDesc (key : α → ℚ) : List α → List α
  | [] => []
  | a :: l => insertDesc key a (sortDesc key l)

theorem perm_insertDesc (key : α → ℚ) (a : α) (l : List α) :
    (insertDesc key a l).Perm (a :: l) := by
  induction l with
  | nil => exact List.Perm.refl _
  | cons b l ih =>
      rw [insertDesc]
      split
      · exact List.Perm.refl _
      · exact (ih.cons b).trans (List.Perm.swap a b l)

theorem perm_sortDesc (key : α → ℚ) (l : List α) : (sortDesc key l).Perm l := by
  induction l with
  | nil => exact List.Perm.refl _
  | cons a l ih => exact (perm_insertDesc key a (sortDesc key l)).trans (ih.cons a)

theorem sorted_insertDesc (key : α → ℚ) (a : α) (l : List α)
    (h : l.Sorted (fun x y => key y ≤ key x)) :
    (insertDesc key a l).Sorted (fun x y => key y ≤ key x) := by
  induction l with
  | nil => simp [insertDesc]
  | cons b l ih =>
      rw [insertDesc]
      rw [List.sorted_cons] at h
      split
      · rename_i hba
        refine List.sorted_cons.2 ⟨?_, List.sorted_cons.2 h⟩
        intro x hx
        rcases List.mem_cons.1 hx with rfl | hx
        · exact le_of_lt hba
        · exact (h.1 x hx).trans (le_of_lt hba)
      · rename_i hba
        refine List.sorted_cons.2 ⟨?_, ih h.2⟩
        intro x hx
        rcases List.mem_cons.1 ((perm_insertDesc key a l).mem_iff.1 hx) with rfl | hx
        · exact le_of_not_lt hba
        · exact h.1 x hx

theorem sorted_sortDesc (key : α → ℚ) (l : List α) :
    (sortDesc key l).Sorted (fun x y => key y ≤ key x) := by
  induction l with
  | nil => exact List.sorted_nil
  | cons a l ih => exact sorted_insertDesc key a (sortDesc key l) ih

/-! ### The recommendation merger (`mergeRecommendations`) -/

/-- `Map.prototype.get` on the insertion-ordered association list modelling the
`byTitle` map. -/
def getItem (k : String) : List (String × RecItem) → Option RecItem
  | [] => none
  | (k', v) :: rest => if k' = k then some v else getItem k rest

/-- `Map.prototype.set`: replace in place when the key is present (keeping the
insertion position), otherwise append. -/
def setItem (k : String) (v : RecItem) : List (String × RecItem) → List (String × RecItem)
  | [] => [(k, v)]
  | (k', v') :: rest =>
      if k' = k then (k, v) :: rest else (k', v') :: setItem k v rest

/-- The body of the `forEach` in `mergeRecommendations`: insert a new title,
and replace an existing entry only when the new item has strictly greater
estimated savings. -/
def mergeStep (m : List (String × RecItem)) (item : RecItem) :
    List (String × RecItem) :=
  match getItem item.title m with
  | none => setItem item.title item m
  | some existing =>
      if getSavingsMs existing < getSavingsMs item then setItem item.title item m
      else m

/-- `mergeRecommendations`: fold both lists (mobile first) into the
title-keyed map, then sort the values by descending savings and keep the
first 5. -/
def mergeRecommendations (mobile desktop : List RecItem) : List RecItem :=
  let byTitle := (mobile ++ desktop).foldl mergeStep []
  (sortDesc getSavingsMs (byTitle.map Prod.snd)).take 5

example :
    mergeRecommendations
      [⟨"A", none, none, some 2000⟩, ⟨"B", none, none, some 500⟩]
      [⟨"A", none, none, some 1000⟩, ⟨"C", none, none, some 1500⟩] =
      [⟨"A", none, none, some 2000⟩, ⟨"C", none, none, some 1500⟩,
       ⟨"B", none, none, some 500⟩] := by with_unfolding_all rfl

example :
    mergeRecommendations [⟨"Defer images", none, none, some 500⟩]
      [⟨"Defer images", none, some "1.2 s", none⟩] =
      [⟨"Defer images", none, some "1.2 s", none⟩] := by with_unfolding_all rfl

/-! ### Substring lemmas -/

theorem containsSub_of_isStart :
    ∀ (needle l : List Char), isStart needle l = true → containsSub needle l = true
  | _, [], h => by rw [containsSub]; exact h
  | _, _ :: _, h => by rw [containsSub, h, Bool.true_or]

/-- A string containing the substring `"ms"` also contains `"s"`. -/
theorem containsSub_s_of_ms (l : List Char)
    (h : containsSub ['m', 's'] l = true) : containsSub ['s'] l = true := by
  induction l with
  | nil => rw [containsSub, isStart] at h; exact absurd h (by simp)
  | cons c cs ih =>
      rw [containsSub] at h
      rcases Bool.or_eq_true_iff.1 h with h1 | h2
      · rw [isStart] at h1
        have hs : isStart ['s'] cs = true := by
          revert h1
          cases hm : ('m' == c) <;> simp
        rw [containsSub, containsSub_of_isStart _ _ hs, Bool.or_true]
      · rw [containsSub, ih h2, Bool.or_true]

/-! ### Claim theorems for the savings parser and merger -/

/-- Claim C1: for every recommendation item without a numeric `savingsMs`, the
savings parser maps `"1.2 s"` to 1200, `"300 ms"` to 300, `"1,5 s"` to 1500,
an absent or empty savings to 0 and `"abc"` to 0; a normalized savings string
containing `"ms"` yields the extracted number unscaled (the `"ms"` check is
performed before the `"s"` check), and an extracted number with no recognized
unit is taken as already being milliseconds. -/
theorem getSavingsMs_spec (t : String) (d : Option String) :
    getSavingsMs ⟨t, d, some "1.2 s", none⟩ = 1200 ∧
    getSavingsMs ⟨t, d, some "300 ms", none⟩ = 300 ∧
    getSavingsMs ⟨t, d, some "1,5 s", none⟩ = 1500 ∧
    getSavingsMs ⟨t, d, none, none⟩ = 0 ∧
    getSavingsMs ⟨t, d, some "", none⟩ = 0 ∧
    getSavingsMs ⟨t, d, some "abc", none⟩ = 0 ∧
    (∀ (s : String) (run : List Char) (value : ℚ),
      s ≠ "" →
      firstDigitRun ((replaceFirstComma s.data).map Char.toLower) = some run →
      jsNumber run = some value →
      containsSub "ms".data ((replaceFirstComma s.data).map Char.toLower) = true →
      getSavingsMs ⟨t, d, some s, none⟩ = value) ∧
    (∀ (s : String) (run : List Char) (value : ℚ),
      s ≠ "" →
      firstDigitRun ((replaceFirstComma s.data).map Char.toLower) = some run →
      jsNumber run = some value →
      containsSub "s".data ((replaceFirstComma s.data).map Char.toLower) = false →
      getSavingsMs ⟨t, d, some s, none⟩ = value) := by
  refine ⟨by with_unfolding_all rfl, by with_unfolding_all rfl, by with_unfolding_all rfl,
    by with_unfolding_all rfl, by with_unfolding_all rfl, by with_unfolding_all rfl, ?_, ?_⟩
  · intro s run value hs hrun hval hms
    rw [getSavingsMs]
    simp only [if_neg hs, hrun, hval, hms, if_pos]
  · intro s run value hs hrun hval hsunit
    have hms : containsSub "ms".data ((replaceFirstComma s.data).map Char.toLower) = false := by
      have hdm : "ms".data = ['m', 's'] := rfl
      have hds : "s".data = ['s'] := rfl
      rw [hdm]
      by_contra hc
      rw [Bool.not_eq_false] at hc
      rw [hds, containsSub_s_of_ms _ hc] at hsunit
      exact Bool.noConfusion hsunit
    rw [getSavingsMs]
    simp only [if_neg hs, hrun, hval, hms, hsunit, Bool.false_eq_true, if_neg, if_false]

/-- Witness for C1: the hypotheses of the two conditional conjuncts are
satisfiable, e.g. by `"10 ms"` (to 10, not 10000) and `"250"` (to 250). -/
theorem getSavingsMs_spec_witness :
    getSavingsMs ⟨"w", none, some "10 ms", none⟩ = 10 ∧
    getSavingsMs ⟨"w", none, some "250", none⟩ = 250 := by
  constructor
  · exact (getSavingsMs_spec "w" none).2.2.2.2.2.2.1 "10 ms" ['1', '0'] 10
      (by decide) (by with_unfolding_all rfl)
      (by with_unfolding_all rfl) (by with_unfolding_all rfl)
  · exact (getSavingsMs_spec "w" none).2.2.2.2.2.2.2 "250" ['2', '5', '0'] 250
      (by decide) (by with_unfolding_all rfl)
      (by with_unfolding_all rfl) (by with_unfolding_all rfl)

theorem getItem_setItem (k : String) (v : RecItem) :
    ∀ m : List (String × RecItem), getItem k (setItem k v m) = some v := by
  intro m
  induction m with
  | nil => simp [setItem, getItem]
  | cons q rest ih =>
      obtain ⟨k', v'⟩ := q
      by_cases hk : k' = k
      · simp [setItem, getItem, hk]
      · simp [setItem, getItem, hk, ih]

/-- Claim C2: in the merger, a stored item is replaced only when the new item
has strictly greater estimated savings (on smaller-or-equal savings the stored
item is kept); in particular merging a 500 ms `savingsMs` item with a
same-title `"1.2 s"` item keeps the 1200 ms variant. -/
theorem mergeStep_replace_policy (m : List (String × RecItem)) (item ex : RecItem)
    (hex : getItem item.title m = some ex) :
    (getSavingsMs item ≤ getSavingsMs ex → mergeStep m item = m) ∧
    (getSavingsMs ex < getSavingsMs item →
      getItem item.title (mergeStep m item) = some item) ∧
    mergeRecommendations [⟨"Defer images", none, none, some 500⟩]
        [⟨"Defer images", none, some "1.2 s", none⟩] =
      [⟨"Defer images", none, some "1.2 s", none⟩] := by
  refine ⟨?_, ?_, by with_unfolding_all rfl⟩
  · intro hle
    rw [mergeStep, hex]
    show (if getSavingsMs ex < getSavingsMs item then setItem item.title item m else m) = m
    rw [if_neg (not_lt.2 hle)]
  · intro hlt
    rw [mergeStep, hex]
    show getItem item.title
      (if getSavingsMs ex < getSavingsMs item then setItem item.title item m else m) = some item
    rw [if_pos hlt]
    exact getItem_setItem _ _ _

/-- Witness for C2, at the merge map holding the 500 ms variant of
`"Defer images"` and the incoming `"1.2 s"` variant. -/
theorem mergeStep_replace_policy_witness :
    getItem "Defer images"
      (mergeStep [("Defer images", ⟨"Defer images", none, none, some 500⟩)]
        ⟨"Defer images", none, some "1.2 s", none⟩) =
      some ⟨"Defer images", none, some "1.2 s", none⟩ :=
  (mergeStep_replace_policy
      [("Defer images", ⟨"Defer images", none, none, some 500⟩)]
      ⟨"Defer images", none, some "1.2 s", none⟩
      ⟨"Defer images", none, none, some 500⟩
      (by with_unfolding_all rfl)).2.1 (of_decide_eq_true (by with_unfolding_all rfl))

/-! ### Well-formedness of the title-keyed map -/

/-- The `byTitle` map invariant: keys are pairwise distinct, and every stored
item carries its key as title. -/
def MapWF (m : List (String × RecItem)) : Prop :=
  (m.map Prod.fst).Nodup ∧ ∀ p ∈ m, (Prod.snd p).title = Prod.fst p

theorem mem_setItem (k : String) (v : RecItem) (m : List (String × RecItem))
    (p : String × RecItem) (hp : p ∈ setItem k v m) : p = (k, v) ∨ p ∈ m := by
  induction m with
  | nil => simpa [setItem] using hp
  | cons q rest ih =>
      obtain ⟨k1, v1⟩ := q
      rw [setItem] at hp
      by_cases hk : k1 = k
      · rw [if_pos hk] at hp
        rcases List.mem_cons.1 hp with rfl | h
        · exact Or.inl rfl
        · exact Or.inr (List.mem_cons.2 (Or.inr h))
      · rw [if_neg hk] at hp
        rcases List.mem_cons.1 hp with rfl | h
        · exact Or.inr (List.mem_cons.2 (Or.inl rfl))
        · rcases ih h with h1 | h2
          · exact Or.inl h1
          · exact Or.inr (List.mem_cons.2 (Or.inr h2))

theorem keys_setItem (k : String) (v : RecItem) (m : List (String × RecItem)) :
    (setItem k v m).map Prod.fst =
      if k ∈ m.map Prod.fst then m.map Prod.fst else m.map Prod.fst ++ [k] := by
  induction m with
  | nil => simp [setItem]
  | cons q rest ih =>
      obtain ⟨k1, v1⟩ := q
      by_cases hk : k1 = k
      · subst hk
        simp [setItem]
      · rw [setItem, if_neg hk]
        by_cases hmem : k ∈ rest.map Prod.fst
        · simp only [List.map_cons, ih, if_pos hmem]
          rw [if_pos (List.mem_cons.2 (Or.inr hmem))]
        · simp only [List.map_cons, ih, if_neg hmem]
          rw [if_neg]
          · rfl
          · intro hc
            rcases List.mem_cons.1 hc with h1 | h2
            · exact hk h1.symm
            · exact hmem h2

theorem mapWF_setItem (k : String) (v : RecItem) (m : List (String × RecItem))
    (hv : v.title = k) (h : MapWF m) : MapWF (setItem k v m) := by
  constructor
  · rw [keys_setItem]
    by_cases hmem : k ∈ m.map Prod.fst
    · rw [if_pos hmem]; exact h.1
    · rw [if_neg hmem]
      rw [List.nodup_append]
      exact ⟨h.1, List.nodup_singleton k, by simpa using hmem⟩
  · intro p hp
    rcases mem_setItem k v m p hp with rfl | hmem
    · exact hv
    · exact h.2 p hmem

theorem mapWF_mergeStep (m : List (String × RecItem)) (item : RecItem)
    (h : MapWF m) : MapWF (mergeStep m item) := by
  rw [mergeStep]
  cases hg : getItem item.title m with
  | none => exact mapWF_setItem _ _ _ rfl h
  | some ex =>
      show MapWF (if getSavingsMs ex < getSavingsMs item then setItem item.title item m else m)
      by_cases hlt : getSavingsMs ex < getSavingsMs item
      · rw [if_pos hlt]
        exact mapWF_setItem _ _ _ rfl h
      · rw [if_neg hlt]
        exact h

theorem mapWF_foldl (items : List RecItem) (m : List (String × RecItem))
    (h : MapWF m) : MapWF (items.foldl mergeStep m) := by
  induction items generalizing m with
  | nil => exact h
  | cons a as ih => exact ih _ (mapWF_mergeStep m a h)

theorem titles_map_values (m : List (String × RecItem))
    (h : ∀ p ∈ m, (Prod.snd p).title = Prod.fst p) :
    (m.map Prod.snd).map RecItem.title = m.map Prod.fst := by
  induction m with
  | nil => rfl
  | cons q rest ih =>
      simp only [List.map_cons]
      rw [h q (List.mem_cons_self q rest),
        ih (fun p hp => h p (List.mem_cons.2 (Or.inr hp)))]

/-- Claim C3: for every pair of input recommendation lists, the merger output
has at most 5 items, pairwise-distinct titles, and is sorted by descending
estimated savings. -/
theorem mergeRecommendations_invariants (mobile desktop : List RecItem) :
    (mergeRecommendations mobile desktop).length ≤ 5 ∧
    ((mergeRecommendations mobile desktop).map RecItem.title).Nodup ∧
    (mergeRecommendations mobile desktop).Sorted
      (fun a b => getSavingsMs b ≤ getSavingsMs a) := by
  have hwf : MapWF ((mobile ++ desktop).foldl mergeStep []) :=
    mapWF_foldl _ _ ⟨List.nodup_nil, by simp⟩
  have hmerge : mergeRecommendations mobile desktop =
      (sortDesc getSavingsMs
        (((mobile ++ desktop).foldl mergeStep []).map Prod.snd)).take 5 := rfl
  refine ⟨?_, ?_, ?_⟩
  · rw [hmerge]
    exact List.length_take_le _ _
  · rw [hmerge]
    have h1 : (((((mobile ++ desktop).foldl mergeStep []).map Prod.snd)).map
        RecItem.title).Nodup := by
      rw [titles_map_values _ hwf.2]
      exact hwf.1
    have h2 := ((perm_sortDesc getSavingsMs
        (((mobile ++ desktop).foldl mergeStep []).map Prod.snd)).map
        RecItem.title).nodup_iff.2 h1
    rw [List.map_take]
    exact h2.sublist (List.take_sublist _ _)
  · rw [hmerge]
    exact List.Pairwise.sublist (List.take_sublist _ _) (sorted_sortDesc _ _)

/-! ### `src/app/api/pagespeed/route.ts`: the simple extractor -/

/-- The `score` field of an audit (`score?: number | null`): distinguishes an
absent field (`undefined`), JSON `null`, and a number. -/
inductive ScoreVal where
  | undef
  | null
  | num (s : ℚ)
deriving DecidableEq, Repr

/-- `audit.score ?? 1`: the `??` operator replaces both `undefined` and
`null`. -/
def scoreOrOne : ScoreVal → ℚ
  | ScoreVal.undef => 1
  | ScoreVal.null => 1
  | ScoreVal.num s => s

/-- `PageSpeedAudit` (the `id` field is the record key and is kept there). -/
structure PSAudit where
  title : String
  description : Option String
  score : ScoreVal
  displayValue : Option String
  numericValue : Option ℚ
deriving DecidableEq, Repr

structure AuditRef where
  id : String
  weight : ℚ
deriving DecidableEq, Repr

structure PerfCategory where
  score : Option ℚ
  auditRefs : Option (List AuditRef)
deriving DecidableEq, Repr

structure Categories where
  performance : Option PerfCategory
deriving DecidableEq, Repr

structure LighthouseResult where
  categories : Option Categories
  audits : Option (List (String × PSAudit))
deriving DecidableEq, Repr

structure PageSpeedResponse where
  lighthouseResult : Option LighthouseResult
deriving DecidableEq, Repr

/-- `audits[key]` on the audit record (a string-keyed object). -/
def lookupAudit (key : String) : List (String × PSAudit) → Option PSAudit
  | [] => none
  | q :: rest => if q.1 = key then some q.2 else lookupAudit key rest

structure Metrics where
  fcp : String
  lcp : String
  tbt : String
  cls : String
deriving DecidableEq, Repr

/-- The `{title, description}` projection of the simple variant. -/
structure SimpleRec where
  title : String
  description : Option String
deriving DecidableEq, Repr

structure ApiResult where
  score : ℤ
  metrics : Metrics
  recommendations : List SimpleRec
deriving DecidableEq, Repr

/-- The recommendation pipeline of `extractResult` up to (but excluding) the
final `{title, description}` projection: resolve `auditRefs` against the
audits record, keep audits with a truthy title and `(score ?? 1) < 1`, sort by
descending `numericValue ?? 0`, take the first 3.  An absent `performance` or
`auditRefs` gives `[]` (the trailing `?? []`). -/
def selectedAudits (payload : PageSpeedResponse) : List PSAudit :=
  let performance := (payload.lighthouseResult.bind fun lr => lr.categories).bind
    fun c => c.performance
  let audits := (payload.lighthouseResult.bind fun lr => lr.audits).getD []
  match performance.bind fun p => p.auditRefs with
  | none => []
  | some refs =>
      (sortDesc (fun a => a.numericValue.getD 0)
        (((refs.filterMap fun ref => lookupAudit ref.id audits).filter
            fun a => a.title != "").filter
          fun a => scoreOrOne a.score < 1)).take 3

/-- `extractResult` from the pagespeed route: rounded score (absent fractional
score defaults to 0), four display metrics defaulting to `"--"`, and the
projected recommendation list. -/
def extractResult (payload : PageSpeedResponse) : ApiResult :=
  let performance := (payload.lighthouseResult.bind fun lr => lr.categories).bind
    fun c => c.performance
  let audits := (payload.lighthouseResult.bind fun lr => lr.audits).getD []
  ⟨jsRound (((performance.bind fun p => p.score).getD 0) * 100),
   ⟨((lookupAudit "first-contentful-paint" audits).bind fun a => a.displayValue).getD "--",
    ((lookupAudit "largest-contentful-paint" audits).bind fun a => a.displayValue).getD "--",
    ((lookupAudit "total-blocking-time" audits).bind fun a => a.displayValue).getD "--",
    ((lookupAudit "cumulative-layout-shift" audits).bind fun a => a.displayValue).getD "--"⟩,
   (selectedAudits payload).map fun a => ⟨a.title, a.description⟩⟩

/-! ### `src/app/api/analyze/route.ts`: the richer extractor -/

/-- An audit as consumed by `analyzePageSpeed`; `overallSavingsMs` models
`details?.overallSavingsMs` (absent `details` and absent `overallSavingsMs`
are observationally identical there). -/
structure AnalyzeAudit where
  title : String
  description : Option String
  score : ScoreVal
  displayValue : Option String
  overallSavingsMs : Option ℚ
deriving DecidableEq, Repr

structure AnalyzePerf where
  score : Option ℚ
deriving DecidableEq, Repr

structure AnalyzeCategories where
  performance : Option AnalyzePerf
deriving DecidableEq, Repr

structure AnalyzeLighthouse where
  categories : Option AnalyzeCategories
  audits : Option (List (String × AnalyzeAudit))
deriving DecidableEq, Repr

structure AnalyzeData where
  lighthouseResult : Option AnalyzeLighthouse
deriving DecidableEq, Repr

def lookupAAudit (key : String) : List (String × AnalyzeAudit) → Option AnalyzeAudit
  | [] => none
  | q :: rest => if q.1 = key then some q.2 else lookupAAudit key rest

/-- `audit.score !== null` (true also for an absent field). -/
def scoreNotNull : ScoreVal → Bool
  | ScoreVal.null => false
  | _ => true

/-- `audit.score < 1` under JavaScript coercion: `undefined < 1` is false
(`NaN` comparison) and `null < 1` is true (`null` coerces to 0). -/
def scoreLtOne : ScoreVal → Bool
  | ScoreVal.undef => false
  | ScoreVal.null => true
  | ScoreVal.num s => s < 1

/-- `audit.details?.overallSavingsMs > 100`: false when the chain is
`undefined`. -/
def savingsGt100 : Option ℚ → Bool
  | some v => 100 < v
  | none => false

/-- The `{title, description, savings, savingsMs}` projection of the richer
variant. -/
structure RichRec where
  title : String
  description : Option String
  savings : String
  savingsMs : ℚ
deriving DecidableEq, Repr

/-- The metrics of the richer variant: no `"--"` fallback, so a present audit
without a `displayValue` yields an absent field. -/
structure AnalyzeMetrics where
  fcp : Option String
  lcp : Option String
  tbt : Option String
  cls : Option String
  speedIndex : Option String
deriving DecidableEq, Repr

/-- The result of `analyzePageSpeed`; `score = none` models the `NaN` produced
by `Math.round(undefined * 100)` when the fractional score is absent. -/
structure AnalyzeResult where
  score : Option ℤ
  metrics : AnalyzeMetrics
  recommendations : List RichRec
deriving DecidableEq, Repr

/-- The recommendation pipeline of `analyzePageSpeed` up to projection:
`Object.values(audits)` filtered by `score !== null && score < 1 &&
details?.overallSavingsMs > 100`, sorted by descending `overallSavingsMs`,
first 3.  The sort reads `details.overallSavingsMs` unguarded; the filter
guarantees the field is present and above 100, so `getD 0` agrees with it on
every element actually sorted. -/
def analyzeSelected (audits : List (String × AnalyzeAudit)) : List AnalyzeAudit :=
  (sortDesc (fun a => a.overallSavingsMs.getD 0)
    ((audits.map Prod.snd).filter fun a =>
      scoreNotNull a.score && scoreLtOne a.score && savingsGt100 a.overallSavingsMs)).take 3

/-- The richer projection: `savings` is `displayValue ||
round(overallSavingsMs / 1000) + "s"` (an empty `displayValue` is falsy) and
`savingsMs` is `details?.overallSavingsMs ?? 0`. -/
def projRich (a : AnalyzeAudit) : RichRec :=
  ⟨a.title, a.description,
   (match a.displayValue with
    | some s =>
        if s = "" then toString (jsRound (a.overallSavingsMs.getD 0 / 1000)) ++ "s" else s
    | none => toString (jsRound (a.overallSavingsMs.getD 0 / 1000)) ++ "s"),
   a.overallSavingsMs.getD 0⟩

/-- The extraction performed inside `analyzePageSpeed` after the upstream JSON
is parsed.  `none` models a thrown `TypeError`: an absent `lighthouseResult`,
`categories`, `audits` or `performance`, or one of the five metric audits
missing from the audits record. -/
def analyzeExtract (data : AnalyzeData) : Option AnalyzeResult :=
  match data.lighthouseResult with
  | none => none
  | some lighthouse =>
    match lighthouse.categories with
    | none => none
    | some categories =>
      match lighthouse.audits with
      | none => none
      | some audits =>
        match categories.performance with
        | none => none
        | some performance =>
          match lookupAAudit "first-contentful-paint" audits,
              lookupAAudit "largest-contentful-paint" audits,
              lookupAAudit "total-blocking-time" audits,
              lookupAAudit "cumulative-layout-shift" audits,
              lookupAAudit "speed-index" audits with
          | some fcpA, some lcpA, some tbtA, some clsA, some siA =>
              some ⟨performance.score.map fun s => jsRound (s * 100),
                ⟨fcpA.displayValue, lcpA.displayValue, tbtA.displayValue,
                 clsA.displayValue, siA.displayValue⟩,
                (analyzeSelected audits).map projRich⟩
          | _, _, _, _, _ => none

/-! ### The two `POST` handlers -/

inductive Strategy where
  | mobile
  | desktop
deriving DecidableEq, Repr

/-- The url validation regex `/^https?:\/\//i`. -/
def matchesHttp (url : String) : Bool :=
  isStart "http://".data (url.data.map Char.toLower) ||
  isStart "https://".data (url.data.map Char.toLower)

/-- A route handler response: a JSON success body, or a JSON error body with a
status code. -/
inductive ApiResponse (α : Type) where
  | ok (body : α)
  | err (status : ℕ) (msg : String)
deriving DecidableEq, Repr

structure PagespeedBody where
  url : Option String
deriving DecidableEq, Repr

/-- The `POST` handler of the pagespeed route.  `fetch` abstracts
`fetchPageSpeed` (API-key and HTTP-status failures become `Except.error`); the
second component records which upstream strategies were fetched, in issue
order — `Promise.all` starts both fetches before either settles. -/
def pagespeedPOST (fetch : String → Strategy → Except String PageSpeedResponse)
    (body : PagespeedBody) : ApiResponse (ApiResult × ApiResult) × List Strategy :=
  match body.url with
  | none => (ApiResponse.err 400 "Informe uma URL válida com http ou https.", [])
  | some url =>
    if url == "" || !(matchesHttp url) then
      (ApiResponse.err 400 "Informe uma URL válida com http ou https.", [])
    else
      match fetch url Strategy.mobile, fetch url Strategy.desktop with
      | Except.ok mobile, Except.ok desktop =>
          (ApiResponse.ok (extractResult mobile, extractResult desktop),
           [Strategy.mobile, Strategy.desktop])
      | Except.error e, _ =>
          (ApiResponse.err 500 e, [Strategy.mobile, Strategy.desktop])
      | _, Except.error e =>
          (ApiResponse.err 500 e, [Strategy.mobile, Strategy.desktop])

structure AnalyzeBody where
  email : Option String
  url : Option String
deriving DecidableEq, Repr

/-- The success body of the analyze route: it echoes `url` and `email`. -/
structure AnalyzeSuccess where
  mobile : AnalyzeResult
  desktop : AnalyzeResult
  url : String
  email : String
deriving DecidableEq, Repr

/-- One `analyzePageSpeed` call: the upstream fetch followed by extraction;
extraction `TypeError`s become rejected promises caught by the handler. -/
def analyzeStrategy (fetch : String → Strategy → Except String AnalyzeData)
    (url : String) (strategy : Strategy) : Except String AnalyzeResult :=
  match fetch url strategy with
  | Except.error e => Except.error e
  | Except.ok data =>
      match analyzeExtract data with
      | none => Except.error "TypeError"
      | some r => Except.ok r

/-- The `POST` handler of the analyze route: only presence (truthiness) of
`email` and `url` is validated, a falsy API key is a 500, and the success
body echoes `url` and `email`. -/
def analyzePOST (apiKey : Option String)
    (fetch : String → Strategy → Except String AnalyzeData)
    (body : AnalyzeBody) : ApiResponse AnalyzeSuccess × List Strategy :=
  match body.email, body.url with
  | some email, some url =>
    if email == "" || url == "" then
      (ApiResponse.err 400 "Email e URL são obrigatórios", [])
    else
      match apiKey with
      | none => (ApiResponse.err 500 "API key não configurada", [])
      | some k =>
        if k == "" then (ApiResponse.err 500 "API key não configurada", [])
        else
          match analyzeStrategy fetch url Strategy.mobile,
              analyzeStrategy fetch url Strategy.desktop with
          | Except.ok mobile, Except.ok desktop =>
              (ApiResponse.ok ⟨mobile, desktop, url, email⟩,
               [Strategy.mobile, Strategy.desktop])
          | Except.error e, _ =>
              (ApiResponse.err 500 e, [Strategy.mobile, Strategy.desktop])
          | _, Except.error e =>
              (ApiResponse.err 500 e, [Strategy.mobile, Strategy.desktop])
  | _, _ => (ApiResponse.err 400 "Email e URL são obrigatórios", [])

/-! ### Claims about the extractor pipelines -/

theorem mem_of_mem_sortDesc_take (key : α → ℚ) (l : List α) (n : ℕ) (x : α)
    (hx : x ∈ (sortDesc key l).take n) : x ∈ l :=
  (perm_sortDesc key l).mem_iff.1 ((List.take_sublist n _).subset hx)

/-- Claim C4 (amended): both extractor variants return at most 3
recommendations, sorted by descending numeric savings with missing values
treated as 0.  Every entry of the simple variant comes from an audit with a
non-empty title and `(score ?? 1) < 1`; every entry of the richer variant
comes from an audit with a non-null, defined score `< 1` and estimated
savings above the 100 ms threshold — but the richer variant does not require
a non-empty title. -/
theorem extractor_selection_invariants (payload : PageSpeedResponse)
    (audits : List (String × AnalyzeAudit)) :
    (selectedAudits payload).length ≤ 3 ∧
    (extractResult payload).recommendations =
      ((selectedAudits payload).map fun a => SimpleRec.mk a.title a.description) ∧
    (selectedAudits payload).Sorted
      (fun a b => b.numericValue.getD 0 ≤ a.numericValue.getD 0) ∧
    ((selectedAudits payload).all fun a =>
      a.title != "" && decide (scoreOrOne a.score < 1)) = true ∧
    (analyzeSelected audits).length ≤ 3 ∧
    (analyzeSelected audits).Sorted
      (fun a b => b.overallSavingsMs.getD 0 ≤ a.overallSavingsMs.getD 0) ∧
    ((analyzeSelected audits).all fun a =>
      scoreNotNull a.score && scoreLtOne a.score && savingsGt100 a.overallSavingsMs) =
      true := by
  have hsel : (selectedAudits payload).length ≤ 3 ∧
      (selectedAudits payload).Sorted
        (fun a b => b.numericValue.getD 0 ≤ a.numericValue.getD 0) ∧
      ((selectedAudits payload).all fun a =>
        a.title != "" && decide (scoreOrOne a.score < 1)) = true := by
    rw [selectedAudits]
    cases hm : ((payload.lighthouseResult.bind fun lr => lr.categories).bind
        fun c => c.performance).bind fun p => p.auditRefs with
    | none => simp
    | some refs =>
        refine ⟨List.length_take_le _ _,
          List.Pairwise.sublist (List.take_sublist _ _) (sorted_sortDesc _ _), ?_⟩
        rw [List.all_eq_true]
        intro a ha
        have h1 := mem_of_mem_sortDesc_take _ _ _ _ ha
        have h2 := List.mem_filter.1 h1
        have h3 := List.mem_filter.1 h2.1
        exact Bool.and_eq_true_iff.2 ⟨h3.2, h2.2⟩
  refine ⟨hsel.1, rfl, hsel.2.1, hsel.2.2, List.length_take_le _ _,
    List.Pairwise.sublist (List.take_sublist _ _) (sorted_sortDesc _ _), ?_⟩
  rw [List.all_eq_true]
  intro a ha
  exact (List.mem_filter.1 (mem_of_mem_sortDesc_take _ _ _ _ ha)).2

/-- A payload for the analyze route whose audits record holds the five metric
audits (unscored) and one further audit with an empty title, score 1/2 and
200 ms of estimated savings. -/
def cex4Data : AnalyzeData :=
  ⟨some ⟨some ⟨some ⟨some (9 / 10)⟩⟩,
    some [("first-contentful-paint", ⟨"FCP", none, ScoreVal.undef, some "1.0 s", none⟩),
          ("largest-contentful-paint", ⟨"LCP", none, ScoreVal.undef, some "2.0 s", none⟩),
          ("total-blocking-time", ⟨"TBT", none, ScoreVal.undef, some "10 ms", none⟩),
          ("cumulative-layout-shift", ⟨"CLS", none, ScoreVal.undef, some "0.1", none⟩),
          ("speed-index", ⟨"SI", none, ScoreVal.undef, some "3.0 s", none⟩),
          ("modern-image-formats", ⟨"", none, ScoreVal.num (1 / 2), none, some 200⟩)]⟩⟩

def emptyAnalyzeResult : AnalyzeResult := ⟨none, ⟨none, none, none, none, none⟩, []⟩

/-- Counterexample to claim C4 as stated: at `cex4Data` the richer variant
returns a recommendation whose source audit has an empty title. -/
theorem analyzeExtract_includes_empty_title :
    ((analyzeExtract cex4Data).getD emptyAnalyzeResult).recommendations.map RichRec.title =
      [""] := by with_unfolding_all rfl

/-- Claim C10: in both extractor variants, an audit whose score is absent or
null is never recommended: every selected audit carries a numeric score
strictly below 1. -/
theorem no_scoreless_recommendation (payload : PageSpeedResponse)
    (audits : List (String × AnalyzeAudit)) :
    ((selectedAudits payload).all fun a =>
      match a.score with
      | ScoreVal.num s => decide (s < 1)
      | _ => false) = true ∧
    ((analyzeSelected audits).all fun a =>
      match a.score with
      | ScoreVal.num s => decide (s < 1)
      | _ => false) = true := by
  constructor
  · rw [selectedAudits]
    cases hm : ((payload.lighthouseResult.bind fun lr => lr.categories).bind
        fun c => c.performance).bind fun p => p.auditRefs with
    | none => simp
    | some refs =>
        rw [List.all_eq_true]
        intro a ha
        have h2 := List.mem_filter.1 (mem_of_mem_sortDesc_take _ _ _ _ ha)
        have hlt := of_decide_eq_true h2.2
        cases hsc : a.score with
        | num s =>
            rw [hsc, scoreOrOne] at hlt
            simpa using hlt
        | undef =>
            rw [hsc, scoreOrOne] at hlt
            exact absurd hlt (lt_irrefl 1)
        | null =>
            rw [hsc, scoreOrOne] at hlt
            exact absurd hlt (lt_irrefl 1)
  · rw [List.all_eq_true]
    intro a ha
    have h2 := (List.mem_filter.1 (mem_of_mem_sortDesc_take _ _ _ _ ha)).2
    rcases Bool.and_eq_true_iff.1 h2 with ⟨h4, hsav⟩
    rcases Bool.and_eq_true_iff.1 h4 with ⟨hnn, hlt⟩
    cases hsc : a.score with
    | num s =>
        rw [hsc] at hlt
        simpa [scoreLtOne] using hlt
    | undef =>
        rw [hsc] at hlt
        simp [scoreLtOne] at hlt
    | null =>
        rw [hsc] at hnn
        simp [scoreNotNull] at hnn

/-! ### Claims about score and metrics extraction -/

/-- In any successful richer extraction, the result score is the fractional
performance score mapped through `round(100 * s)` — with `none` (the `NaN`
marker) passed through rather than defaulted. -/
theorem analyzeExtract_score (data : AnalyzeData) (r : AnalyzeResult)
    (hr : analyzeExtract data = some r) :
    r.score = (((data.lighthouseResult.bind fun lh => lh.categories).bind
      fun c => c.performance).bind fun p => p.score).map fun s => jsRound (s * 100) := by
  rw [analyzeExtract] at hr
  cases hlh : data.lighthouseResult with
  | none => rw [hlh] at hr; exact Option.noConfusion hr
  | some lighthouse =>
    rw [hlh] at hr
    cases hc : lighthouse.categories with
    | none => simp [hc] at hr
    | some categories =>
      cases ha : lighthouse.audits with
      | none => simp [hc, ha] at hr
      | some audits =>
        cases hp : categories.performance with
        | none => simp [hc, ha, hp] at hr
        | some performance =>
          simp only [hc, ha, hp] at hr
          cases q1 : lookupAAudit "first-contentful-paint" audits with
          | none => simp [q1] at hr
          | some fcpA =>
            cases q2 : lookupAAudit "largest-contentful-paint" audits with
            | none => simp [q1, q2] at hr
            | some lcpA =>
              cases q3 : lookupAAudit "total-blocking-time" audits with
              | none => simp [q1, q2, q3] at hr
              | some tbtA =>
                cases q4 : lookupAAudit "cumulative-layout-shift" audits with
                | none => simp [q1, q2, q3, q4] at hr
                | some clsA =>
                  cases q5 : lookupAAudit "speed-index" audits with
                  | none => simp [q1, q2, q3, q4, q5] at hr
                  | some siA =>
                    simp only [q1, q2, q3, q4, q5] at hr
                    rw [← Option.some.inj hr]
                    simp [hlh, hc, hp]

/-- Claim C5 (amended): the simple extractor's score is the category's
fractional score times 100 rounded to nearest (an integer in [0,100] for
fractions in [0,1]) and defaults to 0 when the fractional score is absent;
the richer extractor applies the same rounding when the score is present but
does not default an absent fractional score to 0 — it propagates the `NaN`
marker instead. -/
theorem extract_score_spec (payload : PageSpeedResponse) (s : ℚ)
    (hs : ((payload.lighthouseResult.bind fun lr => lr.categories).bind
      fun c => c.performance).bind (fun p => p.score) = some s) :
    ((extractResult payload).score = jsRound (s * 100)) ∧
    (0 ≤ s → s ≤ 1 →
      0 ≤ (extractResult payload).score ∧ (extractResult payload).score ≤ 100) ∧
    (∀ payload2 : PageSpeedResponse,
      ((payload2.lighthouseResult.bind fun lr => lr.categories).bind
        fun c => c.performance).bind (fun p => p.score) = none →
      (extractResult payload2).score = 0) ∧
    (∀ (data : AnalyzeData) (r : AnalyzeResult), analyzeExtract data = some r →
      r.score = (((data.lighthouseResult.bind fun lh => lh.categories).bind
        fun c => c.performance).bind fun p => p.score).map fun s2 => jsRound (s2 * 100)) := by
  have hval : (extractResult payload).score = jsRound (s * 100) := by
    simp only [extractResult, hs, Option.getD_some]
  refine ⟨hval, ?_, ?_, analyzeExtract_score⟩
  · intro h0 h1
    rw [hval, jsRound]
    constructor
    · refine Int.le_floor.2 ?_
      push_cast
      nlinarith
    · have hlt : (⌊s * 100 + 1 / 2⌋ : ℤ) < 101 := by
        refine Int.floor_lt.2 ?_
        push_cast
        nlinarith
      omega
  · intro payload2 h
    simp only [extractResult, h, Option.getD_none]
    rw [jsRound]
    norm_num

def wit5Payload : PageSpeedResponse := ⟨some ⟨some ⟨some ⟨some (19 / 20), none⟩⟩, none⟩⟩

/-- Witness for C5 at a fractional score of 19/20 (rounds to 95). -/
theorem extract_score_spec_witness :
    (extractResult wit5Payload).score = jsRound (19 / 20 * 100) ∧
    0 ≤ (extractResult wit5Payload).score ∧ (extractResult wit5Payload).score ≤ 100 :=
  ⟨(extract_score_spec wit5Payload (19 / 20) rfl).1,
   (extract_score_spec wit5Payload (19 / 20) rfl).2.1 (by norm_num) (by norm_num)⟩

def cex5Data : AnalyzeData :=
  ⟨some ⟨some ⟨some ⟨none⟩⟩,
    some [("first-contentful-paint", ⟨"FCP", none, ScoreVal.undef, some "1.0 s", none⟩),
          ("largest-contentful-paint", ⟨"LCP", none, ScoreVal.undef, some "2.0 s", none⟩),
          ("total-blocking-time", ⟨"TBT", none, ScoreVal.undef, some "10 ms", none⟩),
          ("cumulative-layout-shift", ⟨"CLS", none, ScoreVal.undef, some "0.1", none⟩),
          ("speed-index", ⟨"SI", none, ScoreVal.undef, some "3.0 s", none⟩)]⟩⟩

/-- Counterexample to claim C5 as stated: at `cex5Data` (performance category
present, fractional score absent) the richer extractor succeeds with the
`NaN` score marker, not with score 0. -/
theorem analyze_score_absent_is_nan :
    analyzeExtract cex5Data =
      some ⟨none, ⟨some "1.0 s", some "2.0 s", some "10 ms", some "0.1", some "3.0 s"⟩,
        []⟩ := by
  with_unfolding_all rfl

/-- The richer extraction fails outright when any of the four fixed metric
audits is absent from the audits record. -/
theorem analyzeExtract_fails_of_missing_metric (lighthouse : AnalyzeLighthouse)
    (auditsA : List (String × AnalyzeAudit))
    (ha : lighthouse.audits = some auditsA)
    (hmiss : lookupAAudit "first-contentful-paint" auditsA = none ∨
      lookupAAudit "largest-contentful-paint" auditsA = none ∨
      lookupAAudit "total-blocking-time" auditsA = none ∨
      lookupAAudit "cumulative-layout-shift" auditsA = none) :
    analyzeExtract ⟨some lighthouse⟩ = none := by
  rw [analyzeExtract]
  cases hc : lighthouse.categories with
  | none => simp [hc]
  | some categories =>
    cases hp : categories.performance with
    | none => simp [hc, ha, hp]
    | some performance =>
      rcases hmiss with h | h | h | h
      · simp [hc, ha, hp, h]
      · cases q1 : lookupAAudit "first-contentful-paint" auditsA with
        | none => simp [hc, ha, hp, q1]
        | some a1 => simp [hc, ha, hp, q1, h]
      · cases q1 : lookupAAudit "first-contentful-paint" auditsA with
        | none => simp [hc, ha, hp, q1]
        | some a1 =>
          cases q2 : lookupAAudit "largest-contentful-paint" auditsA with
          | none => simp [hc, ha, hp, q1, q2]
          | some a2 => simp [hc, ha, hp, q1, q2, h]
      · cases q1 : lookupAAudit "first-contentful-paint" auditsA with
        | none => simp [hc, ha, hp, q1]
        | some a1 =>
          cases q2 : lookupAAudit "largest-contentful-paint" auditsA with
          | none => simp [hc, ha, hp, q1, q2]
          | some a2 =>
            cases q3 : lookupAAudit "total-blocking-time" auditsA with
            | none => simp [hc, ha, hp, q1, q2, q3]
            | some a3 => simp [hc, ha, hp, q1, q2, q3, h]

/-- In any successful richer extraction, each of the four metric fields is
the looked-up audit's `displayValue` passed through unmodified: no `"--"`
placeholder exists, and an absent `displayValue` yields an absent field. -/
theorem analyzeExtract_metric_fields (lighthouse : AnalyzeLighthouse)
    (auditsA : List (String × AnalyzeAudit)) (r : AnalyzeResult)
    (ha : lighthouse.audits = some auditsA)
    (hr : analyzeExtract ⟨some lighthouse⟩ = some r) :
    (∀ a, lookupAAudit "first-contentful-paint" auditsA = some a →
      r.metrics.fcp = a.displayValue) ∧
    (∀ a, lookupAAudit "largest-contentful-paint" auditsA = some a →
      r.metrics.lcp = a.displayValue) ∧
    (∀ a, lookupAAudit "total-blocking-time" auditsA = some a →
      r.metrics.tbt = a.displayValue) ∧
    (∀ a, lookupAAudit "cumulative-layout-shift" auditsA = some a →
      r.metrics.cls = a.displayValue) := by
  rw [analyzeExtract] at hr
  cases hc : lighthouse.categories with
  | none => simp [hc] at hr
  | some categories =>
    cases hp : categories.performance with
    | none => simp [hc, ha, hp] at hr
    | some performance =>
      simp only [hc, ha, hp] at hr
      cases q1 : lookupAAudit "first-contentful-paint" auditsA with
      | none => simp [q1] at hr
      | some fcpA =>
        cases q2 : lookupAAudit "largest-contentful-paint" auditsA with
        | none => simp [q1, q2] at hr
        | some lcpA =>
          cases q3 : lookupAAudit "total-blocking-time" auditsA with
          | none => simp [q1, q2, q3] at hr
          | some tbtA =>
            cases q4 : lookupAAudit "cumulative-layout-shift" auditsA with
            | none => simp [q1, q2, q3, q4] at hr
            | some clsA =>
              cases q5 : lookupAAudit "speed-index" auditsA with
              | none => simp [q1, q2, q3, q4, q5] at hr
              | some siA =>
                simp only [q1, q2, q3, q4, q5] at hr
                rw [← Option.some.inj hr]
                refine ⟨?_, ?_, ?_, ?_⟩
                · intro a hQ
                  have hEq : fcpA = a := Option.some.inj hQ
                  subst hEq
                  simp
                · intro a hQ
                  have hEq : lcpA = a := Option.some.inj hQ
                  subst hEq
                  simp
                · intro a hQ
                  have hEq : tbtA = a := Option.some.inj hQ
                  subst hEq
                  simp
                · intro a hQ
                  have hEq : clsA = a := Option.some.inj hQ
                  subst hEq
                  simp

/-- Claim C6 (amended): for each of the four fixed metric audit ids the
simple extractor returns the audit's display value when present and exactly
`"--"` when the audit is absent from the audits record; the richer extractor
has no placeholder — an audit absent from the audits record (any of the four
ids) makes its whole extraction fail and that failure surfaces as a 500 from
the handler, while a present audit without a `displayValue` yields an absent
field. -/
theorem metrics_spec (payload : PageSpeedResponse) (audits : List (String × PSAudit))
    (haud : (payload.lighthouseResult.bind fun lr => lr.audits).getD [] = audits) :
    (lookupAudit "first-contentful-paint" audits = none →
      (extractResult payload).metrics.fcp = "--") ∧
    (∀ a v, lookupAudit "first-contentful-paint" audits = some a →
      a.displayValue = some v → (extractResult payload).metrics.fcp = v) ∧
    (lookupAudit "largest-contentful-paint" audits = none →
      (extractResult payload).metrics.lcp = "--") ∧
    (∀ a v, lookupAudit "largest-contentful-paint" audits = some a →
      a.displayValue = some v → (extractResult payload).metrics.lcp = v) ∧
    (lookupAudit "total-blocking-time" audits = none →
      (extractResult payload).metrics.tbt = "--") ∧
    (∀ a v, lookupAudit "total-blocking-time" audits = some a →
      a.displayValue = some v → (extractResult payload).metrics.tbt = v) ∧
    (lookupAudit "cumulative-layout-shift" audits = none →
      (extractResult payload).metrics.cls = "--") ∧
    (∀ a v, lookupAudit "cumulative-layout-shift" audits = some a →
      a.displayValue = some v → (extractResult payload).metrics.cls = v) ∧
    (∀ (lighthouse : AnalyzeLighthouse) (auditsA : List (String × AnalyzeAudit)),
      lighthouse.audits = some auditsA →
      (lookupAAudit "first-contentful-paint" auditsA = none ∨
       lookupAAudit "largest-contentful-paint" auditsA = none ∨
       lookupAAudit "total-blocking-time" auditsA = none ∨
       lookupAAudit "cumulative-layout-shift" auditsA = none) →
      analyzeExtract ⟨some lighthouse⟩ = none) ∧
    (∀ (lighthouse : AnalyzeLighthouse) (auditsA : List (String × AnalyzeAudit))
        (r : AnalyzeResult),
      lighthouse.audits = some auditsA →
      analyzeExtract ⟨some lighthouse⟩ = some r →
      (∀ a, lookupAAudit "first-contentful-paint" auditsA = some a →
        r.metrics.fcp = a.displayValue) ∧
      (∀ a, lookupAAudit "largest-contentful-paint" auditsA = some a →
        r.metrics.lcp = a.displayValue) ∧
      (∀ a, lookupAAudit "total-blocking-time" auditsA = some a →
        r.metrics.tbt = a.displayValue) ∧
      (∀ a, lookupAAudit "cumulative-layout-shift" auditsA = some a →
        r.metrics.cls = a.displayValue)) ∧
    (∀ (apiKey : Option String) (k : String)
        (fetch : String → Strategy → Except String AnalyzeData)
        (body : AnalyzeBody) (email url : String) (data : AnalyzeData),
      apiKey = some k → k ≠ "" → body.email = some email → email ≠ "" →
      body.url = some url → url ≠ "" →
      fetch url Strategy.mobile = Except.ok data → analyzeExtract data = none →
      ∃ msg, (analyzePOST apiKey fetch body).1 = ApiResponse.err 500 msg) := by
  refine ⟨?_, ?_, ?_, ?_, ?_, ?_, ?_, ?_, ?_, ?_, ?_⟩
  · intro h
    simp [extractResult, haud, h]
  · intro a v ha hv
    simp [extractResult, haud, ha, hv]
  · intro h
    simp [extractResult, haud, h]
  · intro a v ha hv
    simp [extractResult, haud, ha, hv]
  · intro h
    simp [extractResult, haud, h]
  · intro a v ha hv
    simp [extractResult, haud, ha, hv]
  · intro h
    simp [extractResult, haud, h]
  · intro a v ha hv
    simp [extractResult, haud, ha, hv]
  · exact analyzeExtract_fails_of_missing_metric
  · exact fun lighthouse auditsA r => analyzeExtract_metric_fields lighthouse auditsA r
  · intro apiKey k fetch body email url data hkey hkne hemail hene hurl hune hfetch hext
    have hne1 : (email == "") = false := by simp [hene]
    have hne2 : (url == "") = false := by simp [hune]
    have hne3 : (k == "") = false := by simp [hkne]
    have hm : analyzeStrategy fetch url Strategy.mobile = Except.error "TypeError" := by
      simp [analyzeStrategy, hfetch, hext]
    rw [analyzePOST, hemail, hurl, hkey]
    exact ⟨"TypeError", by simp [hne1, hne2, hne3, hm]⟩

def wit6Payload : PageSpeedResponse :=
  ⟨some ⟨none,
    some [("first-contentful-paint", ⟨"FCP", none, ScoreVal.undef, some "1.0 s", none⟩)]⟩⟩

/-- A lighthouse payload for the richer extractor whose first-contentful-paint
audit is present but has no `displayValue`. -/
def wit6Lighthouse : AnalyzeLighthouse :=
  ⟨some ⟨some ⟨some (9 / 10)⟩⟩,
    some [("first-contentful-paint", ⟨"FCP", none, ScoreVal.undef, none, none⟩),
          ("largest-contentful-paint", ⟨"LCP", none, ScoreVal.undef, some "2.0 s", none⟩),
          ("total-blocking-time", ⟨"TBT", none, ScoreVal.undef, some "10 ms", none⟩),
          ("cumulative-layout-shift", ⟨"CLS", none, ScoreVal.undef, some "0.1", none⟩),
          ("speed-index", ⟨"SI", none, ScoreVal.undef, some "3.0 s", none⟩)]⟩

def wit6RichResult : AnalyzeResult :=
  ⟨some 90, ⟨none, some "2.0 s", some "10 ms", some "0.1", some "3.0 s"⟩, []⟩

/-- Witness for C6: the simple extractor shows the present fcp display value
and `"--"` for the absent lcp audit; the richer extractor fails when the
total-blocking-time audit is absent, passes an absent `displayValue` through
as an absent field, and an extraction failure surfaces as a 500 from the
handler. -/
theorem metrics_spec_witness :
    (extractResult wit6Payload).metrics.fcp = "1.0 s" ∧
    (extractResult wit6Payload).metrics.lcp = "--" ∧
    analyzeExtract ⟨some ⟨none, some [("first-contentful-paint",
      ⟨"FCP", none, ScoreVal.undef, some "1.0 s", none⟩)]⟩⟩ = none ∧
    wit6RichResult.metrics.fcp = none ∧
    (∃ msg, (analyzePOST (some "key")
      (fun _ _ => Except.ok (⟨none⟩ : AnalyzeData))
      ⟨some "a@b.c", some "https://x.com"⟩).1 = ApiResponse.err 500 msg) := by
  refine ⟨?_, ?_, ?_, ?_, ?_⟩
  · exact (metrics_spec wit6Payload _ rfl).2.1 ⟨"FCP", none, ScoreVal.undef, some "1.0 s", none⟩
      "1.0 s" (by with_unfolding_all rfl) rfl
  · exact (metrics_spec wit6Payload _ rfl).2.2.1 (by with_unfolding_all rfl)
  · exact (metrics_spec wit6Payload _ rfl).2.2.2.2.2.2.2.2.1
      ⟨none, some [("first-contentful-paint", ⟨"FCP", none, ScoreVal.undef, some "1.0 s", none⟩)]⟩
      _ rfl (Or.inr (Or.inr (Or.inl (by with_unfolding_all rfl))))
  · exact ((metrics_spec wit6Payload _ rfl).2.2.2.2.2.2.2.2.2.1
      wit6Lighthouse _ wit6RichResult rfl (by with_unfolding_all rfl)).1
      ⟨"FCP", none, ScoreVal.undef, none, none⟩ (by with_unfolding_all rfl)
  · exact (metrics_spec wit6Payload _ rfl).2.2.2.2.2.2.2.2.2.2 (some "key") "key"
      (fun _ _ => Except.ok (⟨none⟩ : AnalyzeData)) ⟨some "a@b.c", some "https://x.com"⟩
      "a@b.c" "https://x.com" (⟨none⟩ : AnalyzeData) rfl (by decide) rfl (by decide)
      rfl (by decide) rfl rfl

def cex6Data : AnalyzeData :=
  ⟨some ⟨some ⟨some ⟨some (9 / 10)⟩⟩,
    some [("largest-contentful-paint", ⟨"LCP", none, ScoreVal.undef, some "2.0 s", none⟩),
          ("total-blocking-time", ⟨"TBT", none, ScoreVal.undef, some "10 ms", none⟩),
          ("cumulative-layout-shift", ⟨"CLS", none, ScoreVal.undef, some "0.1", none⟩),
          ("speed-index", ⟨"SI", none, ScoreVal.undef, some "3.0 s", none⟩)]⟩⟩

/-- Counterexample to claim C6 as stated: with the first-contentful-paint
audit absent, the richer extractor fails outright instead of displaying
`"--"`. -/
theorem analyze_missing_metric_fails :
    analyzeExtract cex6Data = none := by
  with_unfolding_all rfl

/-! ### Claims about the request handlers -/

/-- Claim C7 (amended): the pagespeed endpoint rejects a url that fails
`^https?://` (or an absent url) with a 400 response before any upstream call;
the analyze endpoint validates only presence of `email` and `url`, so a
present non-http url such as `"ftp://x.com"` proceeds to the upstream
calls. -/
theorem pagespeed_url_validation
    (fetch : String → Strategy → Except String PageSpeedResponse)
    (body : PagespeedBody) (url : String)
    (hurl : body.url = some url) (hbad : matchesHttp url = false) :
    pagespeedPOST fetch body =
      (ApiResponse.err 400 "Informe uma URL válida com http ou https.", []) ∧
    (∀ body2 : PagespeedBody, body2.url = none →
      pagespeedPOST fetch body2 =
        (ApiResponse.err 400 "Informe uma URL válida com http ou https.", [])) := by
  constructor
  · rw [pagespeedPOST, hurl]
    simp [hbad]
  · intro body2 h2
    rw [pagespeedPOST, h2]

/-- Witness for C7 at the url `"ftp://x.com"`. -/
theorem pagespeed_url_validation_witness :
    pagespeedPOST (fun _ _ => Except.error "never called") ⟨some "ftp://x.com"⟩ =
      (ApiResponse.err 400 "Informe uma URL válida com http ou https.", []) :=
  (pagespeed_url_validation (fun _ _ => Except.error "never called")
    ⟨some "ftp://x.com"⟩ "ftp://x.com" rfl (by with_unfolding_all rfl)).1

/-- Counterexample to claim C7 as stated: the analyze endpoint lets
`"ftp://x.com"` through validation and attempts both upstream calls, failing
with a 500 rather than a 400-class response. -/
theorem analyze_accepts_ftp_url :
    analyzePOST (some "key") (fun _ _ => Except.error "upstream failure")
      ⟨some "a@b.c", some "ftp://x.com"⟩ =
      (ApiResponse.err 500 "upstream failure",
       [Strategy.mobile, Strategy.desktop]) := by
  with_unfolding_all rfl

/-- Claim C8: if either upstream strategy call fails, both handlers respond
with a 500 JSON error body that carries no strategy result. -/
theorem upstream_failure_all_or_nothing :
    (∀ (fetch : String → Strategy → Except String PageSpeedResponse)
        (body : PagespeedBody) (url : String),
      body.url = some url → matchesHttp url = true →
      ((∃ e, fetch url Strategy.mobile = Except.error e) ∨
       (∃ e, fetch url Strategy.desktop = Except.error e)) →
      (∃ msg, (pagespeedPOST fetch body).1 = ApiResponse.err 500 msg) ∧
      ∀ r, (pagespeedPOST fetch body).1 ≠ ApiResponse.ok r) ∧
    (∀ (apiKey : Option String) (k : String)
        (fetchA : String → Strategy → Except String AnalyzeData)
        (body : AnalyzeBody) (email url : String),
      apiKey = some k → k ≠ "" →
      body.email = some email → email ≠ "" → body.url = some url → url ≠ "" →
      ((∃ e, fetchA url Strategy.mobile = Except.error e) ∨
       (∃ e, fetchA url Strategy.desktop = Except.error e)) →
      (∃ msg, (analyzePOST apiKey fetchA body).1 = ApiResponse.err 500 msg) ∧
      ∀ r, (analyzePOST apiKey fetchA body).1 ≠ ApiResponse.ok r) := by
  constructor
  · intro fetch body url hurl hok hfail
    have hne : (url == "") = false := by
      have hu : url ≠ "" := by
        intro h
        rw [h] at hok
        have : matchesHttp "" = false := by with_unfolding_all rfl
        rw [this] at hok
        exact Bool.noConfusion hok
      simp [hu]
    have hshape : ∃ msg, (pagespeedPOST fetch body).1 = ApiResponse.err 500 msg := by
      rw [pagespeedPOST, hurl]
      rcases hfail with ⟨e, he⟩ | ⟨e, he⟩
      · exact ⟨e, by simp [hne, hok, he]⟩
      · cases hm : fetch url Strategy.mobile with
        | error e2 => exact ⟨e2, by simp [hne, hok, hm]⟩
        | ok m => exact ⟨e, by simp [hne, hok, hm, he]⟩
    obtain ⟨msg, hmsg⟩ := hshape
    refine ⟨⟨msg, hmsg⟩, ?_⟩
    intro r hr
    rw [hmsg] at hr
    exact ApiResponse.noConfusion hr
  · intro apiKey k fetchA body email url hkey hkne hemail hene hurl hune hfail
    have hne1 : (email == "") = false := by simp [hene]
    have hne2 : (url == "") = false := by simp [hune]
    have hne3 : (k == "") = false := by simp [hkne]
    have hshape : ∃ msg, (analyzePOST apiKey fetchA body).1 = ApiResponse.err 500 msg := by
      rw [analyzePOST, hemail, hurl, hkey]
      rcases hfail with ⟨e, he⟩ | ⟨e, he⟩
      · have hm : analyzeStrategy fetchA url Strategy.mobile = Except.error e := by
          rw [analyzeStrategy, he]
        exact ⟨e, by simp [hne1, hne2, hne3, hm]⟩
      · have hd : analyzeStrategy fetchA url Strategy.desktop = Except.error e := by
          rw [analyzeStrategy, he]
        cases hm : analyzeStrategy fetchA url Strategy.mobile with
        | error e2 => exact ⟨e2, by simp [hne1, hne2, hne3, hm]⟩
        | ok m => exact ⟨e, by simp [hne1, hne2, hne3, hm, hd]⟩
    obtain ⟨msg, hmsg⟩ := hshape
    refine ⟨⟨msg, hmsg⟩, ?_⟩
    intro r hr
    rw [hmsg] at hr
    exact ApiResponse.noConfusion hr

/-- Witness for C8: both handlers on a failing upstream oracle. -/
theorem upstream_failure_all_or_nothing_witness :
    (∃ msg, (pagespeedPOST (fun _ _ => Except.error "boom")
      ⟨some "https://x.com"⟩).1 = ApiResponse.err 500 msg) ∧
    (∃ msg, (analyzePOST (some "key") (fun _ _ => Except.error "boom")
      ⟨some "a@b.c", some "https://x.com"⟩).1 = ApiResponse.err 500 msg) :=
  ⟨(upstream_failure_all_or_nothing.1 (fun _ _ => Except.error "boom")
      ⟨some "https://x.com"⟩ "https://x.com" rfl (by with_unfolding_all rfl)
      (Or.inl ⟨"boom", rfl⟩)).1,
   (upstream_failure_all_or_nothing.2 (some "key") "key" (fun _ _ => Except.error "boom")
      ⟨some "a@b.c", some "https://x.com"⟩ "a@b.c" "https://x.com" rfl (by decide)
      rfl (by decide) rfl (by decide) (Or.inl ⟨"boom", rfl⟩)).1⟩

/-- Erase the echoed email from an analyze response (used to state that the
rest of the response does not depend on the email). -/
def stripEmail : ApiResponse AnalyzeSuccess → ApiResponse AnalyzeSuccess
  | ApiResponse.ok s => ApiResponse.ok ⟨s.mobile, s.desktop, s.url, ""⟩
  | ApiResponse.err c m => ApiResponse.err c m

/-- Claim C9 (amended): the email never influences the analysis — the
pagespeed handler's body has no email field at all, and two analyze requests
differing only in a truthy email produce identical upstream call logs and
responses that agree everywhere outside the echoed email; however the analyze
success body does carry the submitted email back to the client. -/
theorem email_noninterference (apiKey : Option String)
    (fetch : String → Strategy → Except String AnalyzeData)
    (url e1 e2 : String) (h1 : e1 ≠ "") (h2 : e2 ≠ "") :
    stripEmail (analyzePOST apiKey fetch ⟨some e1, some url⟩).1 =
      stripEmail (analyzePOST apiKey fetch ⟨some e2, some url⟩).1 ∧
    (analyzePOST apiKey fetch ⟨some e1, some url⟩).2 =
      (analyzePOST apiKey fetch ⟨some e2, some url⟩).2 := by
  have he1 : (e1 == "") = false := by simp [h1]
  have he2 : (e2 == "") = false := by simp [h2]
  by_cases hu : url = ""
  · subst hu
    constructor <;> simp [analyzePOST, he1, he2, stripEmail]
  · have hu2 : (url == "") = false := by simp [hu]
    cases apiKey with
    | none => constructor <;> simp [analyzePOST, he1, he2, hu2, stripEmail]
    | some k =>
        by_cases hk : k = ""
        · subst hk
          constructor <;> simp [analyzePOST, he1, he2, hu2, stripEmail]
        · have hk2 : (k == "") = false := by simp [hk]
          cases hm : analyzeStrategy fetch url Strategy.mobile with
          | error e =>
              constructor <;> simp [analyzePOST, he1, he2, hu2, hk2, hm, stripEmail]
          | ok m =>
              cases hd : analyzeStrategy fetch url Strategy.desktop with
              | error e =>
                  constructor <;> simp [analyzePOST, he1, he2, hu2, hk2, hm, hd, stripEmail]
              | ok d =>
                  constructor <;> simp [analyzePOST, he1, he2, hu2, hk2, hm, hd, stripEmail]

/-- Witness for C9 at two distinct emails. -/
theorem email_noninterference_witness :
    stripEmail (analyzePOST (some "key") (fun _ _ => Except.error "boom")
        ⟨some "a@b.c", some "https://x.com"⟩).1 =
      stripEmail (analyzePOST (some "key") (fun _ _ => Except.error "boom")
        ⟨some "x@y.z", some "https://x.com"⟩).1 :=
  (email_noninterference (some "key") (fun _ _ => Except.error "boom")
    "https://x.com" "a@b.c" "x@y.z" (by decide) (by decide)).1

def cex9Data : AnalyzeData :=
  ⟨some ⟨some ⟨some ⟨some (9 / 10)⟩⟩,
    some [("first-contentful-paint", ⟨"FCP", none, ScoreVal.undef, some "1.0 s", none⟩),
          ("largest-contentful-paint", ⟨"LCP", none, ScoreVal.undef, some "2.0 s", none⟩),
          ("total-blocking-time", ⟨"TBT", none, ScoreVal.undef, some "10 ms", none⟩),
          ("cumulative-layout-shift", ⟨"CLS", none, ScoreVal.undef, some "0.1", none⟩),
          ("speed-index", ⟨"SI", none, ScoreVal.undef, some "3.0 s", none⟩)]⟩⟩

/-- Counterexample to claim C9 as stated: the analyze success response body
contains the submitted email verbatim. -/
theorem analyze_success_echoes_email :
    analyzePOST (some "key") (fun _ _ => Except.ok cex9Data)
      ⟨some "a@b.c", some "https://example.com"⟩ =
      (ApiResponse.ok
        ⟨⟨some 90, ⟨some "1.0 s", some "2.0 s", some "10 ms", some "0.1", some "3.0 s"⟩, []⟩,
         ⟨some 90, ⟨some "1.0 s", some "2.0 s", some "10 ms", some "0.1", some "3.0 s"⟩, []⟩,
         "https://example.com", "a@b.c"⟩,
       [Strategy.mobile, Strategy.desktop]) := by
  with_unfolding_all rfl

end PageSpeed
